import Mathlib

/-!
Verification of the bulk message cleanup engine
(`src/redbot/cogs/cleanup/cleanup.py`).

The embedding models:
- `Cleanup.get_messages_for_deletion` (the batch collector, lines 40-74),
- the per-subcommand predicates (`text`, `user`, `bot`, `self`),
- `Cleanup.check_100_plus` (the confirmation gate, lines 21-38),
- the control flow of the `text`, `user`, `messages`, `bot`, `self` and
  `after` subcommands up to the point where messages are collected and the
  deletion executor is invoked.

Modelling conventions:
- A Discord message is a record of id, author id, content and creation time
  (seconds). `timedelta.days` of a datetime difference is floor division of
  the difference in seconds by 86400, i.e. `Int.fdiv`.
- `channel.history(limit, before, after)` is external library code; it is
  modelled positionally: the channel's messages are given as a list in the
  order the scanner yields them, a page is `take limit` of the remaining
  list, and the cursor update `before = message` (the last yielded message)
  resumes right after that message, i.e. at the rest of the list (Discord
  message ids are unique, so the positional cursor coincides with the real
  one).
- Python strings are modelled through their character lists so that all
  operations compute by kernel reduction.
- External collaborators (the member converter, the command registry
  `bot.get_command`, the message lookup `channel.get_message`, the stdlib
  regex engine `re.match`) are passed in as function parameters.
-/

/-- A Discord message, as the cleanup cog reads it: id, author id, text
content and creation timestamp in seconds. -/
structure DMessage where
  id : Nat
  author_id : Nat
  content : String
  created_at : Int
deriving DecidableEq, Repr

/-- Python `(a - b).days` for datetimes `a`, `b` given in seconds:
`timedelta.days` floors towards negative infinity. -/
def daysBetween (a b : Int) : Int :=
  Int.fdiv (a - b) 86400

/-- Python `s.startswith(p)` on character lists. -/
def strStartsWith (p s : String) : Bool :=
  p.data.isPrefixOf s.data

/-- Python `s.endswith(p)` on character lists. -/
def strEndsWith (p s : String) : Bool :=
  p.data.reverse.isPrefixOf s.data.reverse

/-- Substring test on character lists. -/
def listContainsSeq : List Char → List Char → Bool
  | p, [] => p.isEmpty
  | p, c :: rest => p.isPrefixOf (c :: rest) || listContainsSeq p rest

/-- Python `p in s` (substring containment). -/
def strContains (p s : String) : Bool :=
  listContainsSeq p.data s.data

/-- Python `s.lower()`, per-character (ASCII case folding suffices here). -/
def strLower (s : String) : String :=
  String.mk (s.data.map Char.toLower)

/-- Python `s[n:]` (character slicing). -/
def strDropChars (n : Nat) (s : String) : String :=
  String.mk (s.data.drop n)

/-- Python `s.split(' ')[0]`: the characters before the first space. -/
def firstSpaceField (s : String) : String :=
  String.mk (s.data.takeWhile (fun c => !(c == ' ')))

/-- The outer `while` condition `len(to_delete) - 1 < number` of
`get_messages_for_deletion` (line 57). -/
def outerCond (number : Int) (td : List DMessage) : Bool :=
  decide ((td.length : Int) - 1 < number)

/-- The append condition of line 62-63:
`(not number or len(to_delete) - 1 < number) and check(message) and
(ctx.message.created_at - message.created_at).days < 14`. -/
def appendCond (t number : Int) (check : DMessage → Bool) (td : List DMessage)
    (m : DMessage) : Bool :=
  (number == 0 || decide ((td.length : Int) - 1 < number)) && check m
    && decide (daysBetween t m.created_at < 14)

/-- The age branch of line 65:
`(ctx.message.created_at - message.created_at).days >= 14`. -/
def oldCond (t : Int) (m : DMessage) : Bool :=
  decide (14 ≤ daysBetween t m.created_at)

/-- The count-break branch of line 68:
`number and len(to_delete) >= number`. -/
def brkCond (number : Int) (td : List DMessage) : Bool :=
  (!(number == 0)) && decide (number ≤ (td.length : Int))

/-- Page bookkeeping for one step of the collector. `pageLeft` counts the
messages still owed by the current `channel.history` page; `some 0` means
the page is over, which is where the outer `while` condition is re-checked
and a fresh page is requested. The result is `none` when the function
returns (`while` condition false, or an empty page making `message` stay
`None`), and `some pl` when the next message is consumed with `pl` messages
owed afterwards. -/
def stepQuota (limit : Option Nat) (number : Int) (pageLeft : Option Nat)
    (td : List DMessage) : Option (Option Nat) :=
  match pageLeft with
  | some 0 =>
    if outerCond number td then
      match limit with
      | some 0 => none
      | some (l + 1) => some (some l)
      | none => some none
    else none
  | some (k + 1) => some (some k)
  | none => some none

/-- The loop of `Cleanup.get_messages_for_deletion` (lines 57-74) over the
remaining scan list. The first over-age message returns immediately
(`too_old` break); the count break (line 68-69) ends the page (`some 0`),
which re-checks the `while` condition before the next page. -/
def gmfdGo (t number : Int) (check : DMessage → Bool) (limit : Option Nat) :
    List DMessage → Option Nat → List DMessage → List DMessage
  | [], _, td => td
  | m :: rest, pageLeft, td =>
    match stepQuota limit number pageLeft td with
    | none => td
    | some pl =>
      if appendCond t number check td m then
        gmfdGo t number check limit rest pl (td ++ [m])
      else if oldCond t m then td
      else if brkCond number td then
        gmfdGo t number check limit rest (some 0) td
      else
        gmfdGo t number check limit rest pl td

/-- `Cleanup.get_messages_for_deletion(ctx, channel, number, check, limit,
before, after)` (lines 40-74). `t` is `ctx.message.created_at`; `scan` is
the channel history in yield order starting at the initial cursor. The
initial state `some 0` is the first evaluation of the `while` condition
followed by the first `channel.history` call. -/
def get_messages_for_deletion (t number : Int) (check : DMessage → Bool)
    (limit : Option Nat) (scan : List DMessage) : List DMessage :=
  gmfdGo t number check limit scan (some 0) []

/-- The predicate built by the `text` subcommand (lines 103-109). -/
def cleanup_text_check (txt : String) (ctxMsg : DMessage) (m : DMessage) : Bool :=
  if strContains txt m.content then true
  else if m == ctxMsg then true
  else false

/-- The predicate built by the `user` subcommand (lines 153-159); `targetId`
is the `_id` variable (a member id or the integer parsed from the raw
argument). -/
def cleanup_user_check (targetId : Int) (ctxMsg : DMessage) (m : DMessage) : Bool :=
  if (m.author_id : Int) == targetId then true
  else if m == ctxMsg then true
  else false

/-- The prefix list preprocessing of the `bot` subcommand (lines 267-269):
`if '' in prefixes: prefixes.remove('')` removes the first empty entry. -/
def cleanup_bot_prefixes (raw : List String) : List String :=
  raw.erase ""

/-- Python `m.content[len(p):].split(' ')[0]` (line 278): the command name
after stripping the matched prefix. -/
def cmd_name_of (p c : String) : String :=
  firstSpaceField (strDropChars p.data.length c)

/-- The predicate built by the `bot` subcommand (lines 271-280).
`discord.utils.find(m.content.startswith, prefixes)` is the first prefix, in
list order, that the content starts with; `getCmd` models
`bool(self.bot.get_command(name))`. -/
def cleanup_bot_check (botUserId : Nat) (ctxMsg : DMessage)
    (prefixes : List String) (getCmd : String → Bool) (m : DMessage) : Bool :=
  if m.author_id == botUserId then true
  else if m == ctxMsg then true
  else
    match prefixes.find? (fun p => strStartsWith p m.content) with
    | some p => if !(p == "") then getCmd (cmd_name_of p m.content) else false
    | none => false

/-- The `content_match` closure of the `self` subcommand (lines 324-338).
`reMatch pat c` models the stdlib call `bool(re.compile(pat).match(c))`
(the regex engine is external library code, passed in as a parameter); the
`r(`-`)` detection, the leading-`r` strip and the substring fallback follow
the source. -/
def content_match_fn (pat : Option String) (reMatch : String → String → Bool) :
    String → Bool :=
  match pat with
  | none => fun _ => true
  | some p =>
    if !(p == "") && strStartsWith "r(" p && strEndsWith ")" p then
      fun c => reMatch (strDropChars 1 p) c
    else if !(p == "") then
      fun c => strContains p c
    else
      fun _ => true

/-- The predicate built by the `self` subcommand (lines 340-345). -/
def cleanup_self_check (botUserId : Nat) (contentMatch : String → Bool)
    (m : DMessage) : Bool :=
  if !(m.author_id == botUserId) then false
  else if contentMatch m.content then true
  else false

/-- The batch the `self` subcommand hands to the deletion executor
(lines 347-353): the collector result, plus the trigger message appended
when the invoking author is the bot itself (`if author == self.bot.user:
to_delete.append(ctx.message)`; Discord user equality is by id). -/
def cleanup_self_to_delete (botUserId : Nat) (number : Int)
    (pat : Option String) (reMatch : String → String → Bool)
    (ctxMsg : DMessage) (scan : List DMessage) : List DMessage :=
  let td := get_messages_for_deletion ctxMsg.created_at number
    (cleanup_self_check botUserId (content_match_fn pat reMatch)) (some 1000) scan
  if ctxMsg.author_id == botUserId then td ++ [ctxMsg] else td

/-- `Cleanup.check_100_plus` (lines 21-38). `incoming` is the stream of
messages the bot observes after the prompt; `ctx.bot.wait_for('message',
check=author_check)` resolves with the first message whose author is the
invoker — no timeout argument is passed, so with no such message the await
never completes, modelled as `none`. On a response the result is
`response.content.lower().startswith('y')`. -/
def check_100_plus (authorId : Nat) (incoming : List DMessage) : Option Bool :=
  match incoming.find? (fun m => m.author_id == authorId) with
  | some response => some (strStartsWith "y" (strLower response.content))
  | none => none

/-- Observable outcome of one bounded subcommand invocation: whether the
confirmation prompt was shown, and the batch handed to the deletion
executor (`none` when the command returned before collecting). -/
structure CommandRun where
  prompted : Bool
  batch : Option (List DMessage)
deriving DecidableEq, Repr

/-- The gate lines shared verbatim by the bounded subcommands (`text` lines
98-101, `user` 148-151, `messages` 229-232, `bot` 258-261, `self` 313-316):
`if number > 100: cont = await self.check_100_plus(ctx, number); if not
cont: return`, followed by the rest of the command producing batch `B`.
While `check_100_plus` is pending or after it returns `False` the batch is
never collected. -/
def gatedRun (authorId : Nat) (number : Int) (incoming : List DMessage)
    (B : List DMessage) : CommandRun :=
  if 100 < number then
    match check_100_plus authorId incoming with
    | some true => ⟨true, some B⟩
    | _ => ⟨true, none⟩
  else ⟨false, some B⟩

/-- The `text` subcommand (lines 83-122) up to the deletion call: the
`number > 100` gate, then collection with the `text` predicate,
`limit=1000`, `before=ctx.message`. -/
def cleanup_text_run (ctxMsg : DMessage) (txt : String) (number : Int)
    (incoming scan : List DMessage) : CommandRun :=
  gatedRun ctxMsg.author_id number incoming
    (get_messages_for_deletion ctxMsg.created_at number
      (cleanup_text_check txt ctxMsg) (some 1000) scan)

/-- The `messages` subcommand (lines 215-246) up to the deletion call; the
collector runs with the default check `lambda x: True`. -/
def cleanup_messages_run (ctxMsg : DMessage) (number : Int)
    (incoming scan : List DMessage) : CommandRun :=
  gatedRun ctxMsg.author_id number incoming
    (get_messages_for_deletion ctxMsg.created_at number
      (fun _ => true) (some 1000) scan)

/-- The `bot` subcommand (lines 248-295) up to the deletion call: gate,
prefix preprocessing, collection with the `bot` predicate. -/
def cleanup_bot_run (ctxMsg : DMessage) (botUserId : Nat)
    (rawPrefixes : List String) (getCmd : String → Bool) (number : Int)
    (incoming scan : List DMessage) : CommandRun :=
  gatedRun ctxMsg.author_id number incoming
    (get_messages_for_deletion ctxMsg.created_at number
      (cleanup_bot_check botUserId ctxMsg (cleanup_bot_prefixes rawPrefixes) getCmd)
      (some 1000) scan)

/-- The `self` subcommand (lines 297-369) up to the deletion call: gate,
then the batch of `cleanup_self_to_delete`. -/
def cleanup_self_run (ctxMsg : DMessage) (botUserId : Nat) (number : Int)
    (pat : Option String) (reMatch : String → String → Bool)
    (incoming scan : List DMessage) : CommandRun :=
  gatedRun ctxMsg.author_id number incoming
    (cleanup_self_to_delete botUserId number pat reMatch ctxMsg scan)

/-- Outcome of a `user` subcommand invocation. `nameError` is the
`UnboundLocalError`/`NameError` raised while formatting the audit string
(`member or '???'`, line 167) after collection and before any deletion;
`completed` means deletion was reached. Both carry the collected batch. -/
inductive UserOutcome where
  | badArgument
  | blocked
  | cancelled
  | nameError (collected : List DMessage)
  | completed (collected : List DMessage)
deriving DecidableEq, Repr

/-- Observable outcome of the `user` subcommand: prompt shown, and how the
invocation ended. -/
structure UserRun where
  prompted : Bool
  outcome : UserOutcome
deriving DecidableEq, Repr

/-- Value of a decimal digit character, `none` for a non-digit. -/
def digitVal (c : Char) : Option Nat :=
  if 48 ≤ c.toNat && c.toNat ≤ 57 then some (c.toNat - 48) else none

/-- Decimal digit-string accumulator for `parsePyInt`. -/
def parseDigitsAux : List Char → Nat → Option Nat
  | [], acc => some acc
  | c :: rest, acc =>
    match digitVal c with
    | some d => parseDigitsAux rest (acc * 10 + d)
    | none => none

/-- Python `int(s)` for a plain decimal literal with an optional sign
(`none` models a raised `ValueError`; Python's tolerance for surrounding
whitespace and digit underscores is not needed here). -/
def parsePyInt (s : String) : Option Int :=
  match s.data with
  | [] => none
  | c :: rest =>
    if c == '-' then
      match rest with
      | [] => none
      | _ => (parseDigitsAux rest 0).map (fun v => -(v : Int))
    else if c == '+' then
      match rest with
      | [] => none
      | _ => (parseDigitsAux rest 0).map (fun v => (v : Int))
    else (parseDigitsAux (c :: rest) 0).map (fun v => (v : Int))

/-- The `_id` resolution of the `user` subcommand (lines 134-142).
`resolveMember` models `commands.converter.MemberConverter().convert`
(`none` models a raised `BadArgument`); the fallback is Python `int(user)`
(`none` models a raised `ValueError`, turned into `BadArgument`). -/
def user_resolved_id (resolveMember : String → Option Nat) (userArg : String) :
    Option Int :=
  match resolveMember userArg with
  | some mid => some (mid : Int)
  | none => parsePyInt userArg

/-- The `user` subcommand after a confirmed gate (lines 161-174): collect,
then format the audit string. When the converter failed (`member` was never
bound) evaluating `member or '???'` raises before the deletion call. -/
def user_post_gate (ctxMsg : DMessage) (number : Int)
    (resolveMember : String → Option Nat) (userArg : String) (targetId : Int)
    (scan : List DMessage) : UserOutcome :=
  let td := get_messages_for_deletion ctxMsg.created_at number
    (cleanup_user_check targetId ctxMsg) (some 1000) scan
  match resolveMember userArg with
  | none => UserOutcome.nameError td
  | some _ => UserOutcome.completed td

/-- The `user` subcommand (lines 124-174): member/id resolution, the
`number > 100` gate, collection, audit formatting, deletion. -/
def cleanup_user_run (ctxMsg : DMessage) (userArg : String) (number : Int)
    (resolveMember : String → Option Nat) (incoming scan : List DMessage) :
    UserRun :=
  match user_resolved_id resolveMember userArg with
  | none => ⟨false, UserOutcome.badArgument⟩
  | some targetId =>
    if 100 < number then
      match check_100_plus ctxMsg.author_id incoming with
      | some true =>
        ⟨true, user_post_gate ctxMsg number resolveMember userArg targetId scan⟩
      | some false => ⟨true, UserOutcome.cancelled⟩
      | none => ⟨true, UserOutcome.blocked⟩
    else
      ⟨false, user_post_gate ctxMsg number resolveMember userArg targetId scan⟩

/-- Outcome of an `after` subcommand invocation. -/
inductive AfterOutcome where
  | notBotAccount
  | messageNotFound
  | completed (batch : List DMessage)
deriving DecidableEq, Repr

/-- The `after` subcommand (lines 176-213): the bot-account guard runs
before the `channel.get_message` lookup (`lookupMsg`) and before the
collection (`number=0`, default check, `limit=None`, `after` cursor);
`scanAfter` is the history the scanner yields from the `after` cursor. -/
def cleanup_after_run (ctxMsg : DMessage) (isBot : Bool)
    (lookupMsg : Nat → Option DMessage) (messageId : Nat)
    (scanAfter : List DMessage) : AfterOutcome :=
  if !isBot then AfterOutcome.notBotAccount
  else
    match lookupMsg messageId with
    | none => AfterOutcome.messageNotFound
    | some _ =>
      AfterOutcome.completed (get_messages_for_deletion ctxMsg.created_at 0
        (fun _ => true) none scanAfter)

/-- The claim's reading of the `bot` predicate's prefix match, following
the spec's words "prefix-matched against a set of registered command
prefixes, longest-prefix-first": among the prefixes the content starts
with, the longest one is selected. To be compared with
`cleanup_bot_check`, which uses `discord.utils.find` (first match in list
order). -/
def spec_longest_match (prefixes : List String) (c : String) : Option String :=
  (prefixes.filter (fun p => strStartsWith p c)).foldl
    (fun acc p =>
      match acc with
      | none => some p
      | some q => if q.data.length < p.data.length then some p else some q)
    none

/-- The `bot` predicate as the claim describes it: identical to
`cleanup_bot_check` except that the longest matching prefix is the one
stripped before the command lookup. -/
def spec_bot_check (botUserId : Nat) (ctxMsg : DMessage)
    (prefixes : List String) (getCmd : String → Bool) (m : DMessage) : Bool :=
  if m.author_id == botUserId then true
  else if m == ctxMsg then true
  else
    match spec_longest_match prefixes m.content with
    | some p => if !(p == "") then getCmd (cmd_name_of p m.content) else false
    | none => false

/-- Fixture: a message created together with the command (age 0 days). -/
def msgY1 : DMessage := ⟨1, 10, "hello x", 0⟩

/-- Fixture: a second fresh message. -/
def msgY2 : DMessage := ⟨2, 11, "hello", 0⟩

/-- Fixture: a message fifteen days (1296000 seconds) older than the
command. -/
def msgOld : DMessage := ⟨3, 12, "ancient", -1296000⟩

/-- Fixture: the trigger of a selfbot invocation `cleanup self 5 r(^abc)`
(author id 1 is the bot user id). -/
def ctxSelf : DMessage := ⟨99, 1, "!cleanup self 5 r(^abc)", 0⟩

/-- The stdlib regex matcher at the one pattern the fixtures use:
`re.compile("(^abc)").match(c)` succeeds exactly when `c` starts with
`abc`. -/
def reMatchAbc : String → String → Bool := fun _p c => strStartsWith "abc" c

/-- Fixture: a trigger of `cleanup self 5` whose author (id 2) is not the
bot (id 1). -/
def ctxPlain : DMessage := ⟨70, 2, "!cleanup self 5", 0⟩

/-- Fixture: the trigger of a `cleanup bot 5` invocation. -/
def ctxMsgB : DMessage := ⟨60, 7, "!cleanup bot 5", 0⟩

/-- Fixture: a command-invocation message written with the longer prefix
`!!` of a server whose prefix list is `["!", "!!"]`. -/
def msgBotCmd : DMessage := ⟨50, 7, "!!help", 0⟩

/-- Fixture: a command-invocation message using the prefix `!`. -/
def msgBang : DMessage := ⟨51, 7, "!help now", 0⟩

/-- Fixture: the trigger of a `cleanup user 123 5` invocation. -/
def ctxU : DMessage := ⟨100, 7, "!cleanup user 123 5", 0⟩

/-- A member converter that resolves nothing (the guild has no member
matching the argument). -/
def resolveNone : String → Option Nat := fun _ => none

/-- Fixture: a message by the user with id 123. -/
def msgU : DMessage := ⟨4, 123, "spam", 0⟩

/-- Fixture: the trigger of a `cleanup text x 150` invocation. -/
def ctxT : DMessage := ⟨80, 7, "!cleanup text x 150", 0⟩

/-- Fixture: a declining confirmation response by the invoker. -/
def respNo : DMessage := ⟨81, 7, "no", 0⟩

/-- Fixture: an affirmative confirmation response by the invoker. -/
def respYes : DMessage := ⟨82, 7, "Yes", 0⟩

/-- Every message the collector loop ever appends satisfies the check and
is strictly younger than the 14-day window; everything else in the result
was already in the accumulator. -/
theorem gmfdGo_mem (t n : Int) (check : DMessage → Bool) (limit : Option Nat) :
    ∀ (scan : List DMessage) (pl : Option Nat) (td : List DMessage) (x : DMessage),
      x ∈ gmfdGo t n check limit scan pl td →
      x ∈ td ∨ (check x = true ∧ daysBetween t x.created_at < 14) := by
  intro scan
  induction scan with
  | nil =>
    intro pl td x hx
    simp only [gmfdGo] at hx
    exact Or.inl hx
  | cons m rest ih =>
    intro pl td x hx
    simp only [gmfdGo] at hx
    split at hx
    · exact Or.inl hx
    · rename_i pl' hq
      split at hx
      · rename_i hA
        rcases ih pl' (td ++ [m]) x hx with hmem | hP
        · rcases List.mem_append.mp hmem with h1 | h2
          · exact Or.inl h1
          · have hxm : x = m := by simpa using h2
            subst hxm
            simp only [appendCond, Bool.and_eq_true, decide_eq_true_eq] at hA
            exact Or.inr ⟨hA.1.2, hA.2⟩
        · exact Or.inr hP
      · split at hx
        · exact Or.inl hx
        · split at hx
          · exact ih (some 0) td x hx
          · exact ih pl' td x hx

/-- Once the scan list reaches an over-age message the loop returns without
looking further: the result does not depend on anything after that
message. -/
theorem gmfdGo_indep_of_post (t n : Int) (check : DMessage → Bool)
    (limit : Option Nat) (m : DMessage)
    (hm : 14 ≤ daysBetween t m.created_at) :
    ∀ (pre post post' : List DMessage) (pl : Option Nat) (td : List DMessage),
      gmfdGo t n check limit (pre ++ m :: post) pl td =
        gmfdGo t n check limit (pre ++ m :: post') pl td := by
  intro pre
  induction pre with
  | nil =>
    intro post post' pl td
    simp only [List.nil_append, gmfdGo]
    cases hq : stepQuota limit n pl td with
    | none => rfl
    | some pl' =>
      have h1 : decide (daysBetween t m.created_at < 14) = false :=
        decide_eq_false (not_lt.mpr hm)
      have hAf : appendCond t n check td m = false := by
        simp [appendCond, h1]
      have hOt : oldCond t m = true := by
        simp only [oldCond, decide_eq_true_eq]
        exact hm
      simp [hAf, hOt]
  | cons q pre' ih =>
    intro post post' pl td
    simp only [List.cons_append, gmfdGo]
    cases hq : stepQuota limit n pl td with
    | none => rfl
    | some pl' =>
      dsimp only
      split
      · exact ih post post' pl' (td ++ [q])
      · split
        · rfl
        · split
          · exact ih post post' (some 0) td
          · exact ih post post' pl' td

/-- For a positive requested count the accumulator never grows beyond
`number + 1`: the append guard `len(to_delete) - 1 < number` admits one
message more than requested. -/
theorem gmfdGo_length_le (t n : Int) (check : DMessage → Bool)
    (limit : Option Nat) (hn : 0 < n) :
    ∀ (scan : List DMessage) (pl : Option Nat) (td : List DMessage),
      (td.length : Int) ≤ n + 1 →
      ((gmfdGo t n check limit scan pl td).length : Int) ≤ n + 1 := by
  intro scan
  induction scan with
  | nil =>
    intro pl td htd
    simpa [gmfdGo] using htd
  | cons m rest ih =>
    intro pl td htd
    simp only [gmfdGo]
    cases hq : stepQuota limit n pl td with
    | none => simpa using htd
    | some pl' =>
      dsimp only
      by_cases hA : appendCond t n check td m = true
      · rw [if_pos hA]
        apply ih
        simp only [appendCond, Bool.and_eq_true, Bool.or_eq_true,
          decide_eq_true_eq, beq_iff_eq] at hA
        have hlt : (td.length : Int) - 1 < n := by
          rcases hA.1.1 with h0 | h
          · exact absurd h0 (by omega)
          · exact h
        have hlen : ((td ++ [m]).length : Int) = (td.length : Int) + 1 := by
          push_cast [List.length_append, List.length_singleton]
          ring
        rw [hlen]
        omega
      · rw [if_neg hA]
        by_cases hO : oldCond t m = true
        · rw [if_pos hO]
          exact htd
        · rw [if_neg hO]
          by_cases hB : brkCond n td = true
          · rw [if_pos hB]
            exact ih (some 0) td htd
          · rw [if_neg hB]
            exact ih pl' td htd

/-- C1, amended: for every requested count `N > 0`, every channel history
and every predicate, the list returned by `get_messages_for_deletion` has
length at most `N + 1` (not `N` as claimed: the guard
`len(to_delete) - 1 < number` allows one extra message). -/
theorem c1_batch_at_most_requested_plus_one (t n : Int)
    (check : DMessage → Bool) (limit : Option Nat) (scan : List DMessage)
    (hn : 0 < n) :
    ((get_messages_for_deletion t n check limit scan).length : Int) ≤ n + 1 :=
  gmfdGo_length_le t n check limit hn scan (some 0) [] (by simp; omega)

/-- C1 witness: the bound `N + 1` instantiated at `N = 1` on a concrete
two-message history. -/
theorem c1_witness :
    (0 : Int) < 1 ∧
      ((get_messages_for_deletion 0 1 (fun _ => true) (some 100)
          [msgY1, msgY2]).length : Int) ≤ 1 + 1 :=
  ⟨by decide,
    c1_batch_at_most_requested_plus_one 0 1 (fun _ => true) (some 100)
      [msgY1, msgY2] (by decide)⟩

/-- C1 counterexample: with requested count 1 and two qualifying messages
the collector returns two messages, so the batch exceeds the requested
count. -/
theorem c1_counterexample :
    (0 : Int) < 1 ∧
      ¬ ((get_messages_for_deletion 0 1 (fun _ => true) (some 100)
          [msgY1, msgY2]).length : Int) ≤ 1 := by
  decide

/-- C3: when the scan reaches a message whose age is 14 days or more the
loop terminates on the spot — the result is independent of everything
after that message (no later message of the page, no further page), and no
message at or past the window is ever in the batch. -/
theorem c3_window_short_circuit (t n : Int) (check : DMessage → Bool)
    (limit : Option Nat) (pre post post' : List DMessage) (m : DMessage)
    (hm : 14 ≤ daysBetween t m.created_at) :
    get_messages_for_deletion t n check limit (pre ++ m :: post) =
      get_messages_for_deletion t n check limit (pre ++ m :: post') ∧
    ∀ x ∈ get_messages_for_deletion t n check limit (pre ++ m :: post),
      check x = true ∧ daysBetween t x.created_at < 14 := by
  constructor
  · exact gmfdGo_indep_of_post t n check limit m hm pre post post' (some 0) []
  · intro x hx
    rcases gmfdGo_mem t n check limit (pre ++ m :: post) (some 0) [] x hx with h | h
    · simp at h
    · exact h

/-- C3 witness: a fifteen-day-old message cuts the scan so that a message
behind it never affects the result. -/
theorem c3_witness :
    14 ≤ daysBetween 0 msgOld.created_at ∧
      get_messages_for_deletion 0 5 (fun _ => true) (some 100)
          [msgY1, msgOld, msgY2] =
        get_messages_for_deletion 0 5 (fun _ => true) (some 100)
          [msgY1, msgOld] := by
  refine ⟨by decide, ?_⟩
  exact (c3_window_short_circuit 0 5 (fun _ => true) (some 100)
    [msgY1] [msgY2] [] msgOld (by decide)).1

/-- With requested count 0 and no page limit the loop is a single
unbounded page: it appends every young message passing the check and stops
at the first over-age message. -/
theorem gmfdGo_unbounded (t : Int) (check : DMessage → Bool) :
    ∀ (scan td : List DMessage),
      gmfdGo t 0 check none scan none td =
        td ++ (scan.takeWhile
          (fun m => decide (daysBetween t m.created_at < 14))).filter check := by
  intro scan
  induction scan with
  | nil => intro td; simp [gmfdGo]
  | cons m rest ih =>
    intro td
    simp only [gmfdGo, stepQuota]
    by_cases hy : daysBetween t m.created_at < 14
    · cases hc : check m with
      | true =>
        have hA : appendCond t 0 check td m = true := by
          simp [appendCond, hc, hy]
        rw [if_pos hA, ih (td ++ [m])]
        simp [List.takeWhile_cons, List.filter_cons, hy, hc, List.append_assoc]
      | false =>
        have hA : appendCond t 0 check td m = false := by
          simp [appendCond, hc]
        have hO : oldCond t m = false := by
          simp only [oldCond]
          exact decide_eq_false (not_le.mpr hy)
        have hB : brkCond 0 td = false := by simp [brkCond]
        rw [if_neg (by simp [hA]), if_neg (by simp [hO]), if_neg (by simp [hB]),
          ih td]
        simp [List.takeWhile_cons, List.filter_cons, hy, hc]
    · have hA : appendCond t 0 check td m = false := by
        simp [appendCond, hy]
      have hO : oldCond t m = true := by
        simp only [oldCond, decide_eq_true_eq]
        exact not_lt.mp hy
      rw [if_neg (by simp [hA]), if_pos hO]
      simp [List.takeWhile_cons, hy]

/-- C4, amended: with requested count 0 the sweep is complete only in the
configuration the `after` subcommand actually uses, `limit=None`, where the
whole remaining history is one page: the result is then exactly the
qualifying messages (young prefix, filtered by the check) up to exhaustion
or the age window. For finite page sizes the outer loop exits after the
first page that contributes a message (see the counterexample). -/
theorem c4_unbounded_no_page_limit (t : Int) (check : DMessage → Bool)
    (scan : List DMessage) :
    get_messages_for_deletion t 0 check none scan =
      (scan.takeWhile
        (fun m => decide (daysBetween t m.created_at < 14))).filter check := by
  cases scan with
  | nil => rfl
  | cons m rest =>
    have h0 : get_messages_for_deletion t 0 check none (m :: rest) =
        gmfdGo t 0 check none (m :: rest) none [] := rfl
    rw [h0, gmfdGo_unbounded t check (m :: rest) []]
    simp

/-- C4 counterexample: with requested count 0 and page size 1 a history of
two qualifying messages yields only the first one — the sweep is not
unbounded for every page size, because the outer `while` condition
`len(to_delete) - 1 < 0` fails as soon as one message has been
collected. -/
theorem c4_counterexample :
    get_messages_for_deletion 0 0 (fun _ => true) (some 1) [msgY1, msgY2] =
        [msgY1] ∧
      daysBetween 0 msgY2.created_at < 14 ∧
      msgY2 ∉ get_messages_for_deletion 0 0 (fun _ => true) (some 1)
        [msgY1, msgY2] := by
  decide

/-- C2, amended: every message the collector returns satisfies the check
and is strictly younger than 14 days; the batch the `self` subcommand hands
to the deletion executor additionally contains the trigger message
(appended when the invoking author is the bot itself), which is within the
window but need not satisfy the predicate. -/
theorem c2_batch_invariant :
    (∀ (t n : Int) (check : DMessage → Bool) (limit : Option Nat)
        (scan : List DMessage) (x : DMessage),
        x ∈ get_messages_for_deletion t n check limit scan →
        check x = true ∧ daysBetween t x.created_at < 14) ∧
    (∀ (botUserId : Nat) (n : Int) (pat : Option String)
        (reMatch : String → String → Bool) (ctxMsg : DMessage)
        (scan : List DMessage) (x : DMessage),
        x ∈ cleanup_self_to_delete botUserId n pat reMatch ctxMsg scan →
        daysBetween ctxMsg.created_at x.created_at < 14 ∧
          (cleanup_self_check botUserId (content_match_fn pat reMatch) x = true ∨
            x = ctxMsg)) := by
  have hcoll : ∀ (t n : Int) (check : DMessage → Bool) (limit : Option Nat)
      (scan : List DMessage) (x : DMessage),
      x ∈ get_messages_for_deletion t n check limit scan →
      check x = true ∧ daysBetween t x.created_at < 14 := by
    intro t n check limit scan x hx
    rcases gmfdGo_mem t n check limit scan (some 0) [] x hx with h | h
    · simp at h
    · exact h
  refine ⟨hcoll, ?_⟩
  intro botUserId n pat reMatch ctxMsg scan x hx
  simp only [cleanup_self_to_delete] at hx
  split at hx
  · rcases List.mem_append.mp hx with h1 | h2
    · have h := hcoll ctxMsg.created_at n _ (some 1000) scan x h1
      exact ⟨h.2, Or.inl h.1⟩
    · have hxc : x = ctxMsg := by simpa using h2
      subst hxc
      refine ⟨?_, Or.inr rfl⟩
      simp [daysBetween, Int.sub_self, Int.zero_fdiv]
  · have h := hcoll ctxMsg.created_at n _ (some 1000) scan x hx
    exact ⟨h.2, Or.inl h.1⟩

/-- C2 witness: the collector invariant applied to a concrete member of a
concrete batch. -/
theorem c2_witness :
    msgY1 ∈ get_messages_for_deletion 0 1 (fun _ => true) (some 100)
        [msgY1, msgY2] ∧
      ((fun _ => true) msgY1 = true ∧ daysBetween 0 msgY1.created_at < 14) :=
  ⟨by decide,
    c2_batch_invariant.1 0 1 (fun _ => true) (some 100) [msgY1, msgY2] msgY1
      (by decide)⟩

/-- C2 counterexample: a selfbot invocation `cleanup self 5 r(^abc)` puts
its own trigger message into the batch although the predicate rejects it
(the trigger's content does not match the regex), so not every batch
member satisfies the predicate. -/
theorem c2_counterexample :
    ctxSelf ∈ cleanup_self_to_delete 1 5 (some "r(^abc)") reMatchAbc ctxSelf [] ∧
      cleanup_self_check 1 (content_match_fn (some "r(^abc)") reMatchAbc)
        ctxSelf = false := by
  decide

/-- Behaviour of the shared confirmation gate around an arbitrary batch
computation: above 100 the prompt is shown and the batch is collected
exactly on an affirmative response; at or below 100 no prompt is shown and
the batch is always collected. -/
theorem gatedRun_spec (a : Nat) (n : Int) (inc : List DMessage)
    (B : List DMessage) :
    (100 < n → (gatedRun a n inc B).prompted = true ∧
      ∀ r, inc.find? (fun m => m.author_id == a) = some r →
        (strStartsWith "y" (strLower r.content) = true →
          (gatedRun a n inc B).batch = some B) ∧
        (strStartsWith "y" (strLower r.content) = false →
          (gatedRun a n inc B).batch = none)) ∧
    (n ≤ 100 → (gatedRun a n inc B).prompted = false ∧
      (gatedRun a n inc B).batch = some B) := by
  constructor
  · intro hn
    constructor
    · unfold gatedRun
      rw [if_pos hn]
      cases check_100_plus a inc with
      | none => rfl
      | some b => cases b <;> rfl
    · intro r hr
      have hcp : check_100_plus a inc =
          some (strStartsWith "y" (strLower r.content)) := by
        simp [check_100_plus, hr]
      constructor
      · intro hy
        unfold gatedRun
        rw [if_pos hn, hcp, hy]
      · intro hy
        unfold gatedRun
        rw [if_pos hn, hcp, hy]
  · intro hn
    unfold gatedRun
    rw [if_neg (not_lt.mpr hn)]
    exact ⟨rfl, rfl⟩

/-- C5: every bounded cleanup subcommand (`text`, `messages`, `bot`,
`self`, `user`) prompts exactly when the requested count exceeds 100; an
affirmative response (content lowered starts with `y`) lets the pipeline
proceed to collection, any other response ends the command with nothing
collected or deleted; at or below 100 the command auto-confirms without
prompting. For `user` the gate runs after argument resolution but still
before any collection. -/
theorem c5_confirmation_gate :
    (∀ (ctxMsg : DMessage) (txt : String) (n : Int)
        (incoming scan : List DMessage),
      (100 < n → (cleanup_text_run ctxMsg txt n incoming scan).prompted = true ∧
        ∀ r, incoming.find? (fun m => m.author_id == ctxMsg.author_id) = some r →
          (strStartsWith "y" (strLower r.content) = true →
            (cleanup_text_run ctxMsg txt n incoming scan).batch =
              some (get_messages_for_deletion ctxMsg.created_at n
                (cleanup_text_check txt ctxMsg) (some 1000) scan)) ∧
          (strStartsWith "y" (strLower r.content) = false →
            (cleanup_text_run ctxMsg txt n incoming scan).batch = none)) ∧
      (n ≤ 100 → (cleanup_text_run ctxMsg txt n incoming scan).prompted = false ∧
        (cleanup_text_run ctxMsg txt n incoming scan).batch =
          some (get_messages_for_deletion ctxMsg.created_at n
            (cleanup_text_check txt ctxMsg) (some 1000) scan))) ∧
    (∀ (ctxMsg : DMessage) (n : Int) (incoming scan : List DMessage),
      (100 < n →
        (cleanup_messages_run ctxMsg n incoming scan).prompted = true ∧
        ∀ r, incoming.find? (fun m => m.author_id == ctxMsg.author_id) = some r →
          (strStartsWith "y" (strLower r.content) = true →
            (cleanup_messages_run ctxMsg n incoming scan).batch =
              some (get_messages_for_deletion ctxMsg.created_at n
                (fun _ => true) (some 1000) scan)) ∧
          (strStartsWith "y" (strLower r.content) = false →
            (cleanup_messages_run ctxMsg n incoming scan).batch = none)) ∧
      (n ≤ 100 →
        (cleanup_messages_run ctxMsg n incoming scan).prompted = false ∧
        (cleanup_messages_run ctxMsg n incoming scan).batch =
          some (get_messages_for_deletion ctxMsg.created_at n
            (fun _ => true) (some 1000) scan))) ∧
    (∀ (ctxMsg : DMessage) (botUserId : Nat) (rawPrefixes : List String)
        (getCmd : String → Bool) (n : Int) (incoming scan : List DMessage),
      (100 < n →
        (cleanup_bot_run ctxMsg botUserId rawPrefixes getCmd n incoming
          scan).prompted = true ∧
        ∀ r, incoming.find? (fun m => m.author_id == ctxMsg.author_id) = some r →
          (strStartsWith "y" (strLower r.content) = true →
            (cleanup_bot_run ctxMsg botUserId rawPrefixes getCmd n incoming
              scan).batch =
              some (get_messages_for_deletion ctxMsg.created_at n
                (cleanup_bot_check botUserId ctxMsg
                  (cleanup_bot_prefixes rawPrefixes) getCmd) (some 1000) scan)) ∧
          (strStartsWith "y" (strLower r.content) = false →
            (cleanup_bot_run ctxMsg botUserId rawPrefixes getCmd n incoming
              scan).batch = none)) ∧
      (n ≤ 100 →
        (cleanup_bot_run ctxMsg botUserId rawPrefixes getCmd n incoming
          scan).prompted = false ∧
        (cleanup_bot_run ctxMsg botUserId rawPrefixes getCmd n incoming
          scan).batch =
          some (get_messages_for_deletion ctxMsg.created_at n
            (cleanup_bot_check botUserId ctxMsg
              (cleanup_bot_prefixes rawPrefixes) getCmd) (some 1000) scan))) ∧
    (∀ (ctxMsg : DMessage) (botUserId : Nat) (n : Int) (pat : Option String)
        (reMatch : String → String → Bool) (incoming scan : List DMessage),
      (100 < n →
        (cleanup_self_run ctxMsg botUserId n pat reMatch incoming
          scan).prompted = true ∧
        ∀ r, incoming.find? (fun m => m.author_id == ctxMsg.author_id) = some r →
          (strStartsWith "y" (strLower r.content) = true →
            (cleanup_self_run ctxMsg botUserId n pat reMatch incoming
              scan).batch =
              some (cleanup_self_to_delete botUserId n pat reMatch ctxMsg scan)) ∧
          (strStartsWith "y" (strLower r.content) = false →
            (cleanup_self_run ctxMsg botUserId n pat reMatch incoming
              scan).batch = none)) ∧
      (n ≤ 100 →
        (cleanup_self_run ctxMsg botUserId n pat reMatch incoming
          scan).prompted = false ∧
        (cleanup_self_run ctxMsg botUserId n pat reMatch incoming
          scan).batch =
          some (cleanup_self_to_delete botUserId n pat reMatch ctxMsg scan))) ∧
    (∀ (ctxMsg : DMessage) (userArg : String) (n : Int)
        (resolveMember : String → Option Nat) (incoming scan : List DMessage)
        (targetId : Int),
      user_resolved_id resolveMember userArg = some targetId →
      (100 < n →
        (cleanup_user_run ctxMsg userArg n resolveMember incoming
          scan).prompted = true ∧
        ∀ r, incoming.find? (fun m => m.author_id == ctxMsg.author_id) = some r →
          (strStartsWith "y" (strLower r.content) = true →
            (cleanup_user_run ctxMsg userArg n resolveMember incoming
              scan).outcome =
              user_post_gate ctxMsg n resolveMember userArg targetId scan) ∧
          (strStartsWith "y" (strLower r.content) = false →
            (cleanup_user_run ctxMsg userArg n resolveMember incoming
              scan).outcome = UserOutcome.cancelled)) ∧
      (n ≤ 100 →
        (cleanup_user_run ctxMsg userArg n resolveMember incoming
          scan).prompted = false ∧
        (cleanup_user_run ctxMsg userArg n resolveMember incoming
          scan).outcome =
          user_post_gate ctxMsg n resolveMember userArg targetId scan)) := by
  refine ⟨?_, ?_, ?_, ?_, ?_⟩
  · intro ctxMsg txt n incoming scan
    exact gatedRun_spec ctxMsg.author_id n incoming _
  · intro ctxMsg n incoming scan
    exact gatedRun_spec ctxMsg.author_id n incoming _
  · intro ctxMsg botUserId rawPrefixes getCmd n incoming scan
    exact gatedRun_spec ctxMsg.author_id n incoming _
  · intro ctxMsg botUserId n pat reMatch incoming scan
    exact gatedRun_spec ctxMsg.author_id n incoming _
  · intro ctxMsg userArg n resolveMember incoming scan targetId hres
    constructor
    · intro hn
      constructor
      · simp only [cleanup_user_run, hres]
        rw [if_pos hn]
        cases check_100_plus ctxMsg.author_id incoming with
        | none => rfl
        | some b => cases b <;> rfl
      · intro r hr
        have hcp : check_100_plus ctxMsg.author_id incoming =
            some (strStartsWith "y" (strLower r.content)) := by
          simp [check_100_plus, hr]
        constructor
        · intro hy
          simp only [cleanup_user_run, hres]
          rw [if_pos hn, hcp, hy]
        · intro hy
          simp only [cleanup_user_run, hres]
          rw [if_pos hn, hcp, hy]
    · intro hn
      simp only [cleanup_user_run, hres]
      rw [if_neg (not_lt.mpr hn)]
      exact ⟨rfl, rfl⟩

/-- C5 witness: `text` with count 150 prompts, and a `no` response leaves
the batch uncollected. -/
theorem c5_witness :
    (100 : Int) < 150 ∧
      (cleanup_text_run ctxT "x" 150 [respNo] []).prompted = true ∧
      (cleanup_text_run ctxT "x" 150 [respNo] []).batch = none := by
  refine ⟨by decide, ?_, ?_⟩
  · exact ((c5_confirmation_gate.1 ctxT "x" 150 [respNo] []).1 (by decide)).1
  · exact (((c5_confirmation_gate.1 ctxT "x" 150 [respNo] []).1 (by decide)).2
      respNo (by decide)).2 (by decide)

/-- C6: when the acting account is not a bot account, the `after`
subcommand reports the privilege error and returns: the outcome is
`notBotAccount` regardless of the message lookup function and of the
channel history, so no lookup, history fetch or deletion can influence or
be influenced by the invocation. -/
theorem c6_after_requires_bot_account (ctxMsg : DMessage)
    (lookupMsg : Nat → Option DMessage) (messageId : Nat)
    (scanAfter : List DMessage) :
    cleanup_after_run ctxMsg false lookupMsg messageId scanAfter =
      AfterOutcome.notBotAccount := rfl

/-- C7, amended: `check_100_plus` passes no timeout to `wait_for`, so the
wait resolves exactly when a message authored by the invoker arrives:
silence never resolves (in particular it does not resolve to declined),
and an arriving response resolves to its starts-with-y decision. -/
theorem c7_wait_resolves_only_on_response (a : Nat)
    (incoming : List DMessage) :
    (check_100_plus a incoming = none ↔
      ∀ m ∈ incoming, (m.author_id == a) = false) ∧
    (∀ r, incoming.find? (fun m => m.author_id == a) = some r →
      check_100_plus a incoming = some (strStartsWith "y" (strLower r.content))) := by
  constructor
  · constructor
    · intro h m hm
      have hf : incoming.find? (fun m => m.author_id == a) = none := by
        by_contra hne
        rcases Option.ne_none_iff_exists'.mp hne with ⟨r, hr⟩
        simp [check_100_plus, hr] at h
      have := List.find?_eq_none.mp hf m hm
      simpa using this
    · intro hall
      have hf : incoming.find? (fun m => m.author_id == a) = none :=
        List.find?_eq_none.mpr (fun x hx => by simp [hall x hx])
      simp [check_100_plus, hf]
  · intro r hr
    simp [check_100_plus, hr]

/-- C7 witness: with no incoming message the wait is still pending. -/
theorem c7_witness : check_100_plus 5 [] = none :=
  (c7_wait_resolves_only_on_response 5 []).1.mpr (by simp)

/-- C7 counterexample: an absent response does not resolve to declined —
the wait simply never completes (the code passes no timeout to
`wait_for`). -/
theorem c7_counterexample :
    check_100_plus 5 [] = none ∧ ¬ check_100_plus 5 [] = some false := by
  decide

/-- C8, amended: the predicates built by `text`, `user` and `bot` return
true on the triggering command message for every argument; the predicate
built by `self` does not (see the counterexample). -/
theorem c8_trigger_admitted_except_self :
    (∀ (txt : String) (ctxMsg : DMessage),
      cleanup_text_check txt ctxMsg ctxMsg = true) ∧
    (∀ (targetId : Int) (ctxMsg : DMessage),
      cleanup_user_check targetId ctxMsg ctxMsg = true) ∧
    (∀ (botUserId : Nat) (ctxMsg : DMessage) (prefixes : List String)
        (getCmd : String → Bool),
      cleanup_bot_check botUserId ctxMsg prefixes getCmd ctxMsg = true) := by
  refine ⟨?_, ?_, ?_⟩
  · intro txt ctxMsg
    unfold cleanup_text_check
    split
    · rfl
    · simp
  · intro targetId ctxMsg
    unfold cleanup_user_check
    split
    · rfl
    · simp
  · intro botUserId ctxMsg prefixes getCmd
    unfold cleanup_bot_check
    split
    · rfl
    · simp

/-- C8 counterexample: the predicate built by `cleanup self 5` (no
pattern) rejects its own trigger message whenever the invoking author is
not the bot, because its first branch tests the author id against the bot
id. -/
theorem c8_counterexample :
    cleanup_self_check 1 (content_match_fn none reMatchAbc) ctxPlain = false := by
  decide

/-- The first element of a list satisfying a predicate, with everything
before it failing the predicate, is what `List.find?` returns. -/
theorem find?_append_first {α : Type} (pred : α → Bool) :
    ∀ (pre : List α) (p : α) (post : List α),
      (∀ q ∈ pre, pred q = false) → pred p = true →
      (pre ++ p :: post).find? pred = some p := by
  intro pre
  induction pre with
  | nil =>
    intro p post _ hp
    exact List.find?_cons_of_pos _ hp
  | cons q pre' ih =>
    intro p post hpre hp
    have hq : pred q = false := hpre q (by simp)
    rw [List.cons_append, List.find?_cons_of_neg _ (by simp [hq])]
    exact ih p post (fun x hx => hpre x (by simp [hx])) hp

/-- C9, amended: the `bot` predicate strips the first prefix, in the
registered list order, that the content starts with — not the longest
matching prefix — and looks the remainder's first word up in the command
registry. -/
theorem c9_first_matching_used (botUserId : Nat) (ctxMsg : DMessage)
    (getCmd : String → Bool) (m : DMessage) (pre : List String) (p : String)
    (post : List String)
    (hpre : ∀ q ∈ pre, strStartsWith q m.content = false)
    (hp : strStartsWith p m.content = true)
    (hauthor : (m.author_id == botUserId) = false)
    (hctx : (m == ctxMsg) = false)
    (hne : (p == "") = false) :
    cleanup_bot_check botUserId ctxMsg (pre ++ p :: post) getCmd m =
      getCmd (cmd_name_of p m.content) := by
  unfold cleanup_bot_check
  rw [if_neg (by simp [hauthor]), if_neg (by simp [hctx])]
  rw [find?_append_first (fun q => strStartsWith q m.content) pre p post hpre hp]
  simp [hne]

/-- C9 witness: with prefixes `["&", "!", "!!"]` and content `!help now`,
the prefix `!` (first match) is the one stripped. -/
theorem c9_witness :
    strStartsWith "!" msgBang.content = true ∧
      cleanup_bot_check 1 ctxMsgB ["&", "!", "!!"] (fun s => s == "help")
          msgBang =
        (fun s => s == "help") (cmd_name_of "!" msgBang.content) :=
  ⟨by decide,
    c9_first_matching_used 1 ctxMsgB (fun s => s == "help") msgBang
      ["&"] "!" ["!!"] (by decide) (by decide) (by decide) (by decide)
      (by decide)⟩

/-- C9 counterexample: prefixes `["!", "!!"]`, content `!!help`, registry
containing exactly the command `help`. The code strips the first matching
prefix `!` and looks up `!help` (no such command, predicate false); the
claimed longest-prefix-first match would strip `!!` and find `help`
(predicate true). -/
theorem c9_counterexample :
    cleanup_bot_check 1 ctxMsgB (cleanup_bot_prefixes ["!", "!!"])
        (fun s => s == "help") msgBotCmd = false ∧
      spec_bot_check 1 ctxMsgB (cleanup_bot_prefixes ["!", "!!"])
        (fun s => s == "help") msgBotCmd = true := by
  decide

/-- C10: when the member converter fails but the raw argument parses as an
integer (here `"123"` in a guild with no matching member), the `user`
subcommand collects its batch and then crashes with the unbound-`member`
`NameError` while formatting the audit string — before any deletion
occurs. -/
theorem c10_user_unbound_member_name_error :
    cleanup_user_run ctxU "123" 5 resolveNone [] [msgU] =
      ⟨false, UserOutcome.nameError [msgU]⟩ := by
  decide
